/-
Verification of the crestparse conformer-analysis engine (crestparse.py,
singlefile version 0.2.2) against its natural-language specification.

The Python source is shallowly embedded: machine floats are modelled as exact
rationals (for parsing, energies, cutoffs) and real numbers (for exp, sqrt,
arccos, arctan2); Python exceptions are modelled with an `Except PyError`
result; in-place field mutation is modelled as a pure update returning a new
list.
-/
import Mathlib

set_option maxHeartbeats 1000000

/-- Python exception kinds raised by the embedded code paths: `IndexError`
(sequence index out of range), `ValueError` (bad literal for `int()`/`float()`,
`range()` step zero, `min()` of an empty sequence), `ZeroDivisionError`
(division by zero). -/
inductive PyError where
  | indexError
  | valueError
  | zeroDivisionError
deriving DecidableEq

/-- The `Conformer` object of crestparse.py (fields in constructor order:
`index`, `energy`, `relativeEnergy` (initialised 0), `xyzFile`,
`boltzmannFactor` (initialised 0), `atoms`).  Coordinates and energies are
Python floats, modelled as exact rationals. -/
structure Conformer where
  index : ℤ
  energy : ℚ
  relativeEnergy : ℚ
  xyzFile : List String
  boltzmannFactor : ℚ
  atoms : List (ℚ × ℚ × ℚ)
deriving DecidableEq

/-- Default conformer value, used only as the default argument of `List.getD`
at positions that are in range. -/
def cdefault : Conformer := ⟨0, 0, 0, [], 0, []⟩

/-- Numeric value of a list of decimal digit characters. -/
def digitsVal (l : List Char) : ℕ :=
  l.foldl (fun n c => 10 * n + (c.toNat - Char.toNat '0')) 0

/-- Leading/trailing-whitespace strip, as Python `str.strip()` /
the stripping done by `int()` and `float()`. -/
def pyStrip (l : List Char) : List Char :=
  ((l.dropWhile Char.isWhitespace).reverse.dropWhile Char.isWhitespace).reverse

/-- Python `int()` on an already-stripped character list: optional sign then a
nonempty run of digits.  (Underscore separators and other exotic accepted forms
do not occur in the analyzed format and are not modelled.) -/
def pyIntCore (l : List Char) : Option ℤ :=
  match l with
  | '+' :: rest => if rest ≠ [] ∧ rest.all Char.isDigit then some (digitsVal rest : ℤ) else none
  | '-' :: rest => if rest ≠ [] ∧ rest.all Char.isDigit then some (-(digitsVal rest : ℤ)) else none
  | _ => if l ≠ [] ∧ l.all Char.isDigit then some (digitsVal l : ℤ) else none

/-- Python `int(s)`: strips surrounding whitespace, then requires the whole
remaining string to be an integer literal; anything else is a `ValueError`
(modelled as `none`). -/
def pyInt (s : String) : Option ℤ := pyIntCore (pyStrip s.toList)

/-- Magnitude part of a Python float literal: digits, optionally followed by a
point and further digits, with at least one digit overall; the whole input must
be consumed. -/
def pyFloatMag (l : List Char) : Option ℚ :=
  let ip := l.takeWhile Char.isDigit
  let rest := l.dropWhile Char.isDigit
  match rest with
  | [] => if ip = [] then none else some (digitsVal ip : ℚ)
  | '.' :: rest2 =>
    let fp := rest2.takeWhile Char.isDigit
    let rest3 := rest2.dropWhile Char.isDigit
    if rest3 = [] ∧ (ip ≠ [] ∨ fp ≠ []) then
      some ((digitsVal ip : ℚ) + (digitsVal fp : ℚ) / (10 : ℚ) ^ fp.length)
    else none
  | _ => none

/-- Sign handling of a Python float literal. -/
def pyFloatCore (l : List Char) : Option ℚ :=
  match l with
  | '+' :: rest => pyFloatMag rest
  | '-' :: rest => (pyFloatMag rest).map (fun q => -q)
  | _ => pyFloatMag l

/-- Python `float(s)`: strips surrounding whitespace, then requires the whole
remaining string to be a decimal float literal; anything else — in particular a
string with further whitespace-separated tokens after the number — is a
`ValueError` (modelled as `none`).  Exponent/`inf`/`nan` forms do not occur in
the analyzed claims and are not modelled. -/
def pyFloat (s : String) : Option ℚ := pyFloatCore (pyStrip s.toList)

/-- Split on runs of whitespace discarding empty pieces, as Python
`str.split()` with no argument. -/
def splitWsAux : List Char → List Char → List (List Char)
  | [], acc => if acc = [] then [] else [acc.reverse]
  | c :: rest, acc =>
    if c.isWhitespace then
      if acc = [] then splitWsAux rest [] else acc.reverse :: splitWsAux rest []
    else splitWsAux rest (c :: acc)

/-- Python `row.split()`. -/
def pySplit (s : String) : List String :=
  (splitWsAux s.toList []).map (fun cs => String.mk cs)

/-- Python sequence indexing `l[i]`: `IndexError` when out of range. -/
def pyIndexE {α : Type} (l : List α) (i : ℕ) : Except PyError α :=
  match l.get? i with
  | some a => Except.ok a
  | none => Except.error PyError.indexError

/-- Python `float(s)` as an exception-producing step. -/
def toFloatE (s : String) : Except PyError ℚ :=
  match pyFloat s with
  | some q => Except.ok q
  | none => Except.error PyError.valueError

/-- One atom line of `Conformer.__init__`:
`atomData = row.split(); x = float(atomData[1]); y = float(atomData[2]);
z = float(atomData[3])` — evaluated left to right, so a missing field raises
`IndexError` and a non-numeric field raises `ValueError` at its own position. -/
def parseAtomRow (row : String) : Except PyError (ℚ × ℚ × ℚ) := do
  let atomData := pySplit row
  let x ← toFloatE (← pyIndexE atomData 1)
  let y ← toFloatE (← pyIndexE atomData 2)
  let z ← toFloatE (← pyIndexE atomData 3)
  Except.ok (x, y, z)

/-- The `for row in xyzFile[2:]` loop of `Conformer.__init__`. -/
def parseAtoms : List String → Except PyError (List (ℚ × ℚ × ℚ))
  | [] => Except.ok []
  | r :: rs => do
    let a ← parseAtomRow r
    let as ← parseAtoms rs
    Except.ok (a :: as)

/-- Embedding of `Conformer.__init__(index, energy, xyzFile)`: stores the fields, initialises
`relativeEnergy` and `boltzmannFactor` to 0, and populates `atoms` from the
rows after the two header lines. -/
def mkConformer (index : ℤ) (energy : ℚ) (xyzFile : List String) :
    Except PyError Conformer :=
  match parseAtoms (xyzFile.drop 2) with
  | Except.error e => Except.error e
  | Except.ok atoms => Except.ok ⟨index, energy, 0, xyzFile, 0, atoms⟩

/-- The `for structureRow in range(0, len(lines), dataLength)` loop of
`readMultixyzFile`, for a positive step `dataLength`.  Each iteration evaluates
`lines[structureRow+1]` (possible `IndexError`), `float(...)` (possible
`ValueError`), then builds `Conformer(index, ..., lines[structureRow :
structureRow+dataLength])` (Python slices clamp, exactly like `drop`/`take`).
The `fuel` argument only bounds the recursion; callers pass
`lines.length + 1`, which exceeds the number of iterations since the step is
at least 1. -/
def parseBlocks (lines : List String) (dataLength : ℕ) :
    ℕ → ℕ → ℤ → Except PyError (List Conformer)
  | 0, _, _ => Except.ok []
  | fuel + 1, structureRow, index =>
    if structureRow < lines.length then
      match pyIndexE lines (structureRow + 1) with
      | Except.error e => Except.error e
      | Except.ok energyLine =>
        match toFloatE energyLine with
        | Except.error e => Except.error e
        | Except.ok energy =>
          match mkConformer index energy ((lines.drop structureRow).take dataLength) with
          | Except.error e => Except.error e
          | Except.ok conf =>
            match parseBlocks lines dataLength fuel (structureRow + dataLength) (index + 1) with
            | Except.error e => Except.error e
            | Except.ok rest => Except.ok (conf :: rest)
    else Except.ok []

/-- Embedding of `readMultixyzFile` of crestparse.py, on the already-split lines of the
file.  `dataLength = int(lines[0]) + 2` (`IndexError` on an empty file,
`ValueError` on a non-integer first line); `range(0, len(lines), dataLength)`
raises `ValueError` when the step is zero and is empty when the step is
negative; otherwise the blocks are read at rows 0, dataLength, 2·dataLength,
…  There is no validation of block shape: truncated trailing blocks are
sliced short and parsed as-is. -/
def readMultixyzFile (lines : List String) : Except PyError (List Conformer) :=
  match pyIndexE lines 0 with
  | Except.error e => Except.error e
  | Except.ok firstLine =>
    match pyInt firstLine with
    | none => Except.error PyError.valueError
    | some n =>
      if n + 2 = 0 then Except.error PyError.valueError
      else if n + 2 < 0 then Except.ok []
      else parseBlocks lines (n + 2).toNat (lines.length + 1) 0 1

/-- Embedding of `Conformer.formatxyz`: concatenates each stored line followed by a newline
(`stringOutput += line + "\n"`). -/
def formatxyz (c : Conformer) : String :=
  c.xyzFile.foldl (fun stringOutput line => stringOutput ++ line ++ "\n") ""

/-- Source function `tokcal(e) = e*627.5` (Hartree → kcal/mol). -/
def tokcal (e : ℚ) : ℚ := e * 627.5

/-- Source function `tohartree(e) = e/627.5`. -/
def tohartree (e : ℚ) : ℚ := e / 627.5

/-- Variant of `tokcal` at real arguments (the Boltzmann code applies it to a real-valued
expression). -/
noncomputable def tokcalR (e : ℝ) : ℝ := e * 627.5

/-- Embedding of `getMinimum(confList) = min(confList, key=lambda c: c.energy)` on a
nonempty list `c0 :: cs`: Python's `min` scans left to right and replaces the
current best only on a strictly smaller key, so ties keep the first
occurrence. -/
def getMinimum (c0 : Conformer) (cs : List Conformer) : Conformer :=
  cs.foldl (fun best c => if c.energy < best.energy then c else best) c0

/-- Source function `conformerEnergyDifference(conf1, conf2) = conf1.energy - conf2.energy`. -/
def conformerEnergyDifference (conf1 conf2 : Conformer) : ℚ :=
  conf1.energy - conf2.energy

/-- Embedding of `calculateRelativeEnergies(confList)`: finds the lowest conformer and sets
every member's `relativeEnergy` to its energy difference from it.  The in-place
mutation is modelled as a pure update; `min()` of an empty sequence raises
`ValueError`. -/
def calculateRelativeEnergies (confList : List Conformer) :
    Except PyError (List Conformer) :=
  match confList with
  | [] => Except.error PyError.valueError
  | c0 :: cs =>
    let lowestConformer := getMinimum c0 cs
    Except.ok ((c0 :: cs).map fun c =>
      { c with relativeEnergy := conformerEnergyDifference c lowestConformer })

/-- The gas constant used by `boltzmannDistribution`: `R = 0.001987204`
kcal/(mol·K), exactly. -/
def Rgas : ℚ := 0.001987204

/-- Embedding of `boltzmannDistribution(confList, temperature)` of crestparse.py.  The
factor computed by the source is `math.exp(-tokcal(c.relativeEnergy /
(R*temperature)))` — the Hartree→kcal conversion is applied to the quotient,
not to the relative energy.  The per-element division raises
`ZeroDivisionError` when `R*temperature` is zero and the comprehension is
nonempty (Python float division by `0.0` raises).  In the exact real model the
factor sum of a nonempty list is strictly positive, so the normalising
division never raises.  The source also computes an unused `totalEnergy`
binding, reproduced here for fidelity. -/
noncomputable def boltzmannDistribution (confList : List Conformer)
    (temperature : ℚ) : Except PyError (List ℝ) :=
  if confList ≠ [] ∧ Rgas * temperature = 0 then Except.error PyError.zeroDivisionError
  else
    let totalEnergy := (confList.map fun c => tokcal c.relativeEnergy).sum
    let factorList := confList.map fun c =>
      Real.exp (-(tokcalR ((c.relativeEnergy : ℝ) / ((Rgas : ℝ) * (temperature : ℝ)))))
    let factorSum := factorList.sum
    let _ := totalEnergy
    Except.ok (factorList.map fun factor => factor / factorSum)

/-- Embedding of `applyCutoff(confList, energyCutoff)`: the members whose `relativeEnergy`
is strictly below the cutoff, in order. -/
def applyCutoff (confList : List Conformer) (energyCutoff : ℚ) : List Conformer :=
  confList.filter (fun conformer => conformer.relativeEnergy < energyCutoff)

/-- Componentwise dot product of numpy 3-vectors. -/
noncomputable def dot3 (u v : ℝ × ℝ × ℝ) : ℝ :=
  u.1 * v.1 + u.2.1 * v.2.1 + u.2.2 * v.2.2

/-- Cross product `np.cross` of 3-vectors. -/
noncomputable def cross3 (u v : ℝ × ℝ × ℝ) : ℝ × ℝ × ℝ :=
  (u.2.1 * v.2.2 - u.2.2 * v.2.1, u.2.2 * v.1 - u.1 * v.2.2, u.1 * v.2.1 - u.2.1 * v.1)

/-- Componentwise vector subtraction. -/
noncomputable def sub3 (u v : ℝ × ℝ × ℝ) : ℝ × ℝ × ℝ :=
  (u.1 - v.1, u.2.1 - v.2.1, u.2.2 - v.2.2)

/-- Negation `-1 * v`. -/
noncomputable def neg3 (u : ℝ × ℝ × ℝ) : ℝ × ℝ × ℝ := (-u.1, -u.2.1, -u.2.2)

/-- Scalar multiple `s * v`. -/
noncomputable def smul3 (s : ℝ) (u : ℝ × ℝ × ℝ) : ℝ × ℝ × ℝ := (s * u.1, s * u.2.1, s * u.2.2)

/-- Componentwise division `v / s` (the `vector32 /= np.linalg.norm(vector32)`
step). -/
noncomputable def div3 (u : ℝ × ℝ × ℝ) (s : ℝ) : ℝ × ℝ × ℝ := (u.1 / s, u.2.1 / s, u.2.2 / s)

/-- Euclidean norm `np.linalg.norm`. -/
noncomputable def norm3 (u : ℝ × ℝ × ℝ) : ℝ := Real.sqrt (dot3 u u)

/-- Conversion `np.degrees` from radians to degrees. -/
noncomputable def degrees (x : ℝ) : ℝ := x * (180 / Real.pi)

/-- Two-argument arctangent `np.arctan2(y, x)`: the argument of the point `(x, y)`, in `(-π, π]`,
modelled by the complex argument of `x + y·i`. -/
noncomputable def arctan2 (y x : ℝ) : ℝ := Complex.arg ⟨x, y⟩

/-- Access `self.atoms[i]` of a conformer, coerced to real coordinates.  Claims about
the geometry kernel quantify over valid indices only, so the out-of-range
default is never exercised. -/
noncomputable def atomPos (c : Conformer) (i : ℕ) : ℝ × ℝ × ℝ :=
  (((c.atoms.getD i (0, 0, 0)).1 : ℝ), ((c.atoms.getD i (0, 0, 0)).2.1 : ℝ),
    ((c.atoms.getD i (0, 0, 0)).2.2 : ℝ))

/-- Embedding of `Conformer.distance(atomIndex1, atomIndex2)`. -/
noncomputable def distance (c : Conformer) (atomIndex1 atomIndex2 : ℕ) : ℝ :=
  norm3 (sub3 (atomPos c atomIndex1) (atomPos c atomIndex2))

/-- Embedding of `Conformer.angle(atomIndex1, atomIndex2, atomIndex3)`: angle at vertex
`atomIndex2`, in degrees. -/
noncomputable def angle (c : Conformer) (atomIndex1 atomIndex2 atomIndex3 : ℕ) : ℝ :=
  let vector12 := sub3 (atomPos c atomIndex1) (atomPos c atomIndex2)
  let vector23 := sub3 (atomPos c atomIndex3) (atomPos c atomIndex2)
  let cosineAngle := dot3 vector12 vector23 / (norm3 vector12 * norm3 vector23)
  degrees (Real.arccos cosineAngle)

/-- Embedding of `Conformer.dihedral(atomIndex1, atomIndex2, atomIndex3, atomIndex4)`:
signed dihedral in degrees, per the source: project `vector12` and `vector24`
onto the plane perpendicular to the normalised `vector32` and take
`np.arctan2` of the cross/dot products. -/
noncomputable def dihedral (c : Conformer) (atomIndex1 atomIndex2 atomIndex3 atomIndex4 : ℕ) : ℝ :=
  let vector12 := neg3 (sub3 (atomPos c atomIndex2) (atomPos c atomIndex1))
  let vector32 := sub3 (atomPos c atomIndex3) (atomPos c atomIndex2)
  let vector24 := sub3 (atomPos c atomIndex4) (atomPos c atomIndex2)
  let vector32n := div3 vector32 (norm3 vector32)
  let projection12 := sub3 vector12 (smul3 (dot3 vector12 vector32n) vector32n)
  let projection24 := sub3 vector24 (smul3 (dot3 vector24 vector32n) vector32n)
  let x := dot3 projection12 projection24
  let y := dot3 (cross3 vector32n projection12) projection24
  degrees (arctan2 y x)

/-- Interpolation `np.interp(x, [x0, x1], [y0, y1])` for increasing two-point tables:
numpy CLAMPS — it returns `y0` left of the table and `y1` right of it, and
interpolates linearly with slope `(y1-y0)/(x1-x0)` in between. -/
noncomputable def interp (x x0 x1 y0 y1 : ℝ) : ℝ :=
  if x ≤ x0 then y0
  else if x1 ≤ x then y1
  else y0 + (x - x0) * ((y1 - y0) / (x1 - x0))

/-- The summed angle of `Conformer.pyramidalization`: `∠(2-1-3) + ∠(3-1-4) +
∠(4-1-2)` with the first argument as the central atom. -/
noncomputable def angleSum (c : Conformer) (atomIndex1 atomIndex2 atomIndex3 atomIndex4 : ℕ) : ℝ :=
  angle c atomIndex2 atomIndex1 atomIndex3 + angle c atomIndex3 atomIndex1 atomIndex4 +
    angle c atomIndex4 atomIndex1 atomIndex2

/-- Embedding of `Conformer.pyramidalization`: `np.interp(totalAngle, [328.5, 360], [1, 0])`. -/
noncomputable def pyramidalization (c : Conformer) (atomIndex1 atomIndex2 atomIndex3 atomIndex4 : ℕ) : ℝ :=
  interp (angleSum c atomIndex1 atomIndex2 atomIndex3 atomIndex4) 328.5 360 1 0

/-- Claim-side Boltzmann factor, following the specification text:
`exp(-ΔE_kcal / (R·T))` with `ΔE_kcal` the relative energy converted to
kcal/mol by the fixed multiplier 627.5. -/
noncomputable def specBoltzmannFactor (c : Conformer) (temperature : ℚ) : ℝ :=
  Real.exp (-(((c.relativeEnergy : ℝ) * 627.5) / ((Rgas : ℝ) * (temperature : ℝ))))

/-- Claim-side Boltzmann distribution: the spec factors normalised by their
sum, aligned positionally with the input. -/
noncomputable def specBoltzmann (confList : List Conformer) (temperature : ℚ) : List ℝ :=
  confList.map fun c =>
    specBoltzmannFactor c temperature /
      (confList.map fun c2 => specBoltzmannFactor c2 temperature).sum

/-- Claim-side linear map for pyramidalization: the linear function sending
328.5 to 1 and 360 to 0, WITHOUT clamping (the claim asserts it extrapolates
past `[0, 1]` outside the table). -/
noncomputable def specLinearMap (t : ℝ) : ℝ := (360 - t) / (360 - 328.5)

/-- A well-formed 1-atom single-block input. -/
def demoOK : List String := ["1", "-1.0", "C 0 0 0"]

/-- The parse of `demoOK`. -/
def demoOKConfs : List Conformer :=
  [⟨1, -1, 0, ["1", "-1.0", "C 0 0 0"], 0, [(0, 0, 0)]⟩]

/-- An input whose energy line carries an extra token after the number. -/
def demoExtraTok : List String := ["1", "-1.0 foo", "C 0 0 0"]

/-- A 7-line input declaring 2 atoms per block whose second (final) block is
truncated: only 3 of its 4 lines are present. -/
def demoTruncated : List String :=
  ["2", "-1.0", "C 0 0 0", "H 1 0 0", "2", "-0.9", "C 0 0 0"]

/-- Two conformers with identical (tied minimum) energies. -/
def demoTie : List Conformer :=
  [⟨1, 1, 0, [], 0, []⟩, ⟨2, 1, 0, [], 0, []⟩]

/-- Two conformers with distinct energies (second is the minimum). -/
def demoTwo : List Conformer :=
  [⟨1, 2, 0, [], 0, []⟩, ⟨2, 1, 0, [], 0, []⟩]

/-- The spec's concrete geometry scenario: atoms at `(0,0,0)`, `(1,0,0)`,
`(1,1,0)`, `(1,1,1)`. -/
def demoGeom : Conformer :=
  ⟨1, 0, 0, [], 0, [(0, 0, 0), (1, 0, 0), (1, 1, 0), (1, 1, 1)]⟩

/-- A degenerate geometry whose three substituent directions coincide, giving
a summed angle of 0°, far below the 328.5°–360° interpolation table. -/
def demoFlat : Conformer :=
  ⟨1, 0, 0, [], 0, [(0, 0, 0), (1, 0, 0), (1, 0, 0), (1, 0, 0)]⟩

/-- Count of conformers holding `relativeEnergy == 0` in a ranking result
(0 for an error result). -/
def zeroRelCount (r : Except PyError (List Conformer)) : ℕ :=
  match r with
  | Except.ok res => (res.filter (fun c => c.relativeEnergy = 0)).length
  | Except.error _ => 0

/-- Claim-side rendering of a block (`renderBlock` of the spec): each original
line followed by a trailing newline, including the last. -/
def renderBlock (blockLines : List String) : String :=
  blockLines.foldr (fun line rest => line ++ "\n" ++ rest) ""

deriving instance DecidableEq for Except

unseal Rat.add Rat.sub Rat.mul Rat.inv Rat.ofScientific

/-- Success of `pyIndexE`: it succeeds exactly on in-range indices, returning the element. -/
theorem pyIndexE_ok {α : Type} (l : List α) (i : ℕ) (a : α) :
    pyIndexE l i = Except.ok a ↔ l.get? i = some a := by
  unfold pyIndexE
  cases h : l.get? i <;> simp

/-- Success of `toFloatE`: it succeeds exactly when the whole string is a float literal. -/
theorem toFloatE_ok (s : String) (q : ℚ) :
    toFloatE s = Except.ok q ↔ pyFloat s = some q := by
  unfold toFloatE
  cases h : pyFloat s <;> simp

/-- A successfully constructed conformer stores the supplied energy and block
lines verbatim. -/
theorem mkConformer_ok (idx : ℤ) (energy : ℚ) (xyz : List String) (conf : Conformer)
    (h : mkConformer idx energy xyz = Except.ok conf) :
    conf.xyzFile = xyz ∧ conf.energy = energy := by
  unfold mkConformer at h
  cases hp : parseAtoms (xyz.drop 2) <;> rw [hp] at h
  · cases h
  · cases h
    exact ⟨rfl, rfl⟩

/-- Reading `getD` through `map` at an in-range index. -/
theorem getD_map_lt {α β : Type} (f : α → β) (l : List α) (i : ℕ) (hi : i < l.length)
    (d : α) (d2 : β) : (l.map f).getD i d2 = f (l.getD i d) := by
  induction l generalizing i with
  | nil => simp at hi
  | cons a as ih =>
    cases i with
    | zero => rfl
    | succ n => simpa using ih n (by simpa using hi)

/-- Value of `getD` at an in-range index is a member. -/
theorem getD_mem_lt {α : Type} (l : List α) (i : ℕ) (hi : i < l.length) (d : α) :
    l.getD i d ∈ l := by
  induction l generalizing i with
  | nil => simp at hi
  | cons a as ih =>
    cases i with
    | zero => exact List.mem_cons_self _ _
    | succ n => exact List.mem_cons_of_mem _ (ih n (by simpa using hi))

/-- The stable minimum scan: the result's energy bounds the seed and every
scanned element. -/
theorem getMinimum_le (cs : List Conformer) (b : Conformer) :
    (getMinimum b cs).energy ≤ b.energy ∧
      ∀ c ∈ cs, (getMinimum b cs).energy ≤ c.energy := by
  induction cs generalizing b with
  | nil => exact ⟨le_refl _, by simp⟩
  | cons c cs ih =>
    have hfold : getMinimum b (c :: cs) = getMinimum (if c.energy < b.energy then c else b) cs := rfl
    obtain ⟨h1, h2⟩ := ih (if c.energy < b.energy then c else b)
    rw [hfold]
    refine ⟨le_trans h1 ?_, ?_⟩
    · split
      · exact le_of_lt (by assumption)
      · exact le_refl _
    · intro d hd
      rcases List.mem_cons.mp hd with rfl | hd2
      · refine le_trans h1 ?_
        split
        · exact le_refl _
        · exact le_of_not_lt (by assumption)
      · exact h2 d hd2

/-- The stable minimum scan returns the seed or a scanned element. -/
theorem getMinimum_mem (cs : List Conformer) (b : Conformer) :
    getMinimum b cs = b ∨ getMinimum b cs ∈ cs := by
  induction cs generalizing b with
  | nil => exact Or.inl rfl
  | cons c cs ih =>
    have hfold : getMinimum b (c :: cs) = getMinimum (if c.energy < b.energy then c else b) cs := rfl
    rw [hfold]
    rcases ih (if c.energy < b.energy then c else b) with h | h
    · rw [h]
      split
      · exact Or.inr (List.mem_cons_self _ _)
      · exact Or.inl rfl
    · exact Or.inr (List.mem_cons_of_mem _ h)

/-- Each conformer produced by the block loop stores the verbatim slice of the
input starting at its block row, and its energy is the value of Python
`float()` applied to the whole line one past the block row. -/
theorem parseBlocks_fields (lines : List String) (dl : ℕ) :
    ∀ (fuel row : ℕ) (idx : ℤ) (confs : List Conformer),
      parseBlocks lines dl fuel row idx = Except.ok confs →
      ∀ i, i < confs.length →
        (confs.getD i cdefault).xyzFile = (lines.drop (row + i * dl)).take dl ∧
        ∃ s, lines.get? (row + i * dl + 1) = some s ∧
          pyFloat s = some (confs.getD i cdefault).energy := by
  intro fuel
  induction fuel with
  | zero =>
    intro row idx confs h i hi
    simp only [parseBlocks] at h
    cases h
    simp at hi
  | succ fuel ih =>
    intro row idx confs h i hi
    simp only [parseBlocks] at h
    by_cases hrow : row < lines.length
    · rw [if_pos hrow] at h
      cases h1 : pyIndexE lines (row + 1) with
      | error e => rw [h1] at h; cases h
      | ok s =>
        rw [h1] at h
        dsimp only at h
        cases h2 : toFloatE s with
        | error e => rw [h2] at h; cases h
        | ok energy =>
          rw [h2] at h
          dsimp only at h
          cases h3 : mkConformer idx energy ((lines.drop row).take dl) with
          | error e => rw [h3] at h; cases h
          | ok conf =>
            rw [h3] at h
            dsimp only at h
            cases h4 : parseBlocks lines dl fuel (row + dl) (idx + 1) with
            | error e => rw [h4] at h; cases h
            | ok rest =>
              rw [h4] at h
              dsimp only at h
              cases h
              obtain ⟨hxyz, henergy⟩ := mkConformer_ok idx energy _ conf h3
              cases i with
              | zero =>
                refine ⟨by simpa using hxyz, s, ?_, ?_⟩
                · simpa using (pyIndexE_ok lines (row + 1) s).mp h1
                · simpa [henergy] using (toFloatE_ok s energy).mp h2
              | succ n =>
                have hn : n < rest.length := by simpa using hi
                obtain ⟨ha, t, hb, hc⟩ := ih (row + dl) (idx + 1) rest h4 n hn
                have harith : row + dl + n * dl = row + (n + 1) * dl := by
                  rw [Nat.succ_mul]
                  omega
                refine ⟨?_, t, ?_, ?_⟩
                · simpa [harith] using ha
                · simpa [harith] using hb
                · simpa using hc
    · rw [if_neg hrow] at h
      cases h
      simp at hi

/-- The accumulator form of `formatxyz` against the claim-side `renderBlock`. -/
theorem foldl_render (ls : List String) :
    ∀ acc : String, ls.foldl (fun a line => a ++ line ++ "\n") acc = acc ++ renderBlock ls := by
  induction ls with
  | nil => intro acc; simp [renderBlock]
  | cons l ls ih =>
    intro acc
    simp only [List.foldl_cons, renderBlock, List.foldr_cons]
    rw [ih (acc ++ l ++ "\n")]
    simp [renderBlock, String.append_assoc]

/-- Rendering `formatxyz` produces exactly the stored lines, each with a trailing
newline. -/
theorem formatxyz_eq_renderBlock (c : Conformer) :
    formatxyz c = renderBlock c.xyzFile := by
  unfold formatxyz
  rw [foldl_render]
  simp

/-- C7 (amended): the conformer energy of block `i` is Python `float()` of the
ENTIRE line at row `i*(N+2)+1` — the whole second line of the block must be a
single float literal. -/
theorem energy_is_whole_second_line (lines : List String) (confs : List Conformer)
    (firstLine : String) (n : ℤ)
    (h : readMultixyzFile lines = Except.ok confs)
    (h0 : lines.get? 0 = some firstLine) (hn : pyInt firstLine = some n) :
    ∀ i, i < confs.length →
      ∃ s, lines.get? (i * (n + 2).toNat + 1) = some s ∧
        pyFloat s = some ((confs.getD i cdefault).energy) := by
  intro i hi
  unfold readMultixyzFile at h
  have hfi : pyIndexE lines 0 = Except.ok firstLine := by
    unfold pyIndexE
    rw [h0]
  rw [hfi] at h
  dsimp only at h
  rw [hn] at h
  dsimp only at h
  by_cases hz : n + 2 = 0
  · rw [if_pos hz] at h
    cases h
  · rw [if_neg hz] at h
    by_cases hneg : n + 2 < 0
    · rw [if_pos hneg] at h
      cases h
      simp at hi
    · rw [if_neg hneg] at h
      obtain ⟨-, t, hb, hc⟩ :=
        parseBlocks_fields lines (n + 2).toNat (lines.length + 1) 0 1 confs h i hi
      exact ⟨t, by simpa using hb, hc⟩

/-- C8: round-trip — rendering the i-th parsed conformer reproduces the i-th
original block's lines exactly, each followed by a trailing newline (including
the last). -/
theorem formatxyz_roundtrip (lines : List String) (confs : List Conformer)
    (firstLine : String) (n : ℤ)
    (h : readMultixyzFile lines = Except.ok confs)
    (h0 : lines.get? 0 = some firstLine) (hn : pyInt firstLine = some n) :
    ∀ i, i < confs.length →
      formatxyz (confs.getD i cdefault) =
        renderBlock ((lines.drop (i * (n + 2).toNat)).take ((n + 2).toNat)) := by
  intro i hi
  unfold readMultixyzFile at h
  have hfi : pyIndexE lines 0 = Except.ok firstLine := by
    unfold pyIndexE
    rw [h0]
  rw [hfi] at h
  dsimp only at h
  rw [hn] at h
  dsimp only at h
  by_cases hz : n + 2 = 0
  · rw [if_pos hz] at h
    cases h
  · rw [if_neg hz] at h
    by_cases hneg : n + 2 < 0
    · rw [if_pos hneg] at h
      cases h
      simp at hi
    · rw [if_neg hneg] at h
      obtain ⟨hxyz, -⟩ :=
        parseBlocks_fields lines (n + 2).toNat (lines.length + 1) 0 1 confs h i hi
      rw [formatxyz_eq_renderBlock]
      rw [hxyz]
      simp

/-- C8 witness: the round-trip theorem applied to the concrete well-formed
input `demoOK`. -/
theorem formatxyz_roundtrip_witness :
    formatxyz (demoOKConfs.getD 0 cdefault) =
      renderBlock ((demoOK.drop (0 * ((1 : ℤ) + 2).toNat)).take (((1 : ℤ) + 2).toNat)) :=
  formatxyz_roundtrip demoOK demoOKConfs ("1") 1 (by decide) (by decide) (by decide) 0
    (by decide)

/-- C7 witness: the whole-second-line energy theorem applied to `demoOK`. -/
theorem energy_is_whole_second_line_witness :
    ∃ s, demoOK.get? (0 * ((1 : ℤ) + 2).toNat + 1) = some s ∧
      pyFloat s = some ((demoOKConfs.getD 0 cdefault).energy) :=
  energy_is_whole_second_line demoOK demoOKConfs ("1") 1 (by decide) (by decide) (by decide) 0
    (by decide)

/-- C7 counterexample: on an input whose second line is `-1.0 foo`, the parser
raises `ValueError` (Python `float()` rejects the whole line) even though the
FIRST whitespace-delimited field of that line is the perfectly numeric `-1.0`
— so the energy is NOT "the first whitespace-delimited field parsed as a
float", and extra tokens do not parse successfully. -/
theorem extra_token_energy_line_is_value_error :
    readMultixyzFile demoExtraTok = Except.error PyError.valueError ∧
    pyFloat ((pySplit ("-1.0 foo")).getD 0 ("")) = some (-1) := by
  constructor
  · decide
  · decide

/-- C4: the code accepts the truncated input `demoTruncated` without any
error, returning a second conformer that holds only ONE atom although its
block declares two — the slice `lines[4:8]` silently clamps to the three lines
that exist.  No `ParseError` (nor any Python exception) is raised. -/
theorem truncated_final_block_silently_parsed :
    readMultixyzFile demoTruncated =
      Except.ok [⟨1, -1, 0, ["2", "-1.0", "C 0 0 0", "H 1 0 0"], 0, [(0, 0, 0), (1, 0, 0)]⟩,
                 ⟨2, -(9/10), 0, ["2", "-0.9", "C 0 0 0"], 0, [(0, 0, 0)]⟩] := by
  decide

/-- C2 counterexample: on two conformers with tied minimum energies, the
ranking pass leaves BOTH with `relativeEnergy == 0` — the count is 2, not
exactly one. -/
theorem tie_gives_two_zero_relative_energies :
    zeroRelCount (calculateRelativeEnergies demoTie) = 2 ∧
    zeroRelCount (calculateRelativeEnergies demoTie) ≠ 1 := by
  constructor
  · decide
  · decide

/-- C2 (amended): after the ranking pass, a conformer holds
`relativeEnergy == 0` exactly when its energy attains the minimum of the set;
so the zero is unique precisely when the minimum is uniquely attained, and the
first-occurrence minimum always holds it. -/
theorem relative_energy_zero_iff_minimal (l res : List Conformer)
    (h : calculateRelativeEnergies l = Except.ok res) :
    res.length = l.length ∧
    ∀ i, i < l.length →
      ((res.getD i cdefault).relativeEnergy = 0 ↔
        ∀ c ∈ l, (l.getD i cdefault).energy ≤ c.energy) := by
  match l with
  | [] => cases h
  | c0 :: cs =>
    unfold calculateRelativeEnergies at h
    cases h
    refine ⟨by simp, ?_⟩
    intro i hi
    rw [getD_map_lt _ _ i hi cdefault cdefault]
    set m := getMinimum c0 cs with hm
    set a := (c0 :: cs).getD i cdefault with ha
    have hamem : a ∈ c0 :: cs := getD_mem_lt _ i hi _
    have hbound : ∀ c ∈ c0 :: cs, m.energy ≤ c.energy := by
      intro c hc
      rcases List.mem_cons.mp hc with rfl | hc2
      · exact (getMinimum_le cs c).1
      · exact (getMinimum_le cs c0).2 c hc2
    have hmmem : m ∈ c0 :: cs := by
      rw [hm]
      rcases getMinimum_mem cs c0 with hmb | hmc
      · rw [hmb]; exact List.mem_cons_self _ _
      · exact List.mem_cons_of_mem _ hmc
    simp only [conformerEnergyDifference]
    rw [sub_eq_zero]
    constructor
    · intro heq c hc
      rw [heq]
      exact hbound c hc
    · intro hall
      exact le_antisymm (hall m hmmem) (hbound a hamem)

/-- C2 witness: the amended characterisation at the concrete two-conformer
list `demoTwo` whose minimum is unique. -/
theorem relative_energy_zero_iff_minimal_witness :
    ([⟨1, 2, 1, [], 0, []⟩, ⟨2, 1, 0, [], 0, []⟩] : List Conformer).length = demoTwo.length ∧
    ∀ i, i < demoTwo.length →
      ((([⟨1, 2, 1, [], 0, []⟩, ⟨2, 1, 0, [], 0, []⟩] : List Conformer).getD i
          cdefault).relativeEnergy = 0 ↔
        ∀ c ∈ demoTwo, (demoTwo.getD i cdefault).energy ≤ c.energy) :=
  relative_energy_zero_iff_minimal demoTwo [⟨1, 2, 1, [], 0, []⟩, ⟨2, 1, 0, [], 0, []⟩]
    (by decide)

/-- C10: the ranking pass preserves the list length and, pointwise, every
field except `relativeEnergy` — `index`, `energy`, `atoms` and the raw text
lines are untouched; the order is positional so it is preserved as well. -/
theorem calcRel_mutates_only_relativeEnergy (l res : List Conformer)
    (h : calculateRelativeEnergies l = Except.ok res) :
    res.length = l.length ∧
    ∀ i, i < l.length →
      (res.getD i cdefault).index = (l.getD i cdefault).index ∧
      (res.getD i cdefault).energy = (l.getD i cdefault).energy ∧
      (res.getD i cdefault).atoms = (l.getD i cdefault).atoms ∧
      (res.getD i cdefault).xyzFile = (l.getD i cdefault).xyzFile := by
  match l with
  | [] => cases h
  | c0 :: cs =>
    unfold calculateRelativeEnergies at h
    cases h
    refine ⟨by simp, ?_⟩
    intro i hi
    rw [getD_map_lt _ _ i hi cdefault cdefault]
    exact ⟨rfl, rfl, rfl, rfl⟩

/-- C10 witness: the frame property applied at the concrete list `demoTwo`. -/
theorem calcRel_mutates_only_relativeEnergy_witness :
    ([⟨1, 2, 1, [], 0, []⟩, ⟨2, 1, 0, [], 0, []⟩] : List Conformer).length = demoTwo.length ∧
    ∀ i, i < demoTwo.length →
      ((([⟨1, 2, 1, [], 0, []⟩, ⟨2, 1, 0, [], 0, []⟩] : List Conformer).getD i cdefault).index =
          (demoTwo.getD i cdefault).index ∧
        (([⟨1, 2, 1, [], 0, []⟩, ⟨2, 1, 0, [], 0, []⟩] : List Conformer).getD i
              cdefault).energy = (demoTwo.getD i cdefault).energy ∧
        (([⟨1, 2, 1, [], 0, []⟩, ⟨2, 1, 0, [], 0, []⟩] : List Conformer).getD i
              cdefault).atoms = (demoTwo.getD i cdefault).atoms ∧
        (([⟨1, 2, 1, [], 0, []⟩, ⟨2, 1, 0, [], 0, []⟩] : List Conformer).getD i
              cdefault).xyzFile = (demoTwo.getD i cdefault).xyzFile) :=
  calcRel_mutates_only_relativeEnergy demoTwo [⟨1, 2, 1, [], 0, []⟩, ⟨2, 1, 0, [], 0, []⟩]
    (by decide)

/-- C9: `applyCutoff` is idempotent, returns an order-preserving subsequence
of its input, and keeps exactly the conformers whose `relativeEnergy` is
strictly below the cutoff; as a pure function it mutates nothing. -/
theorem applyCutoff_idempotent_filter (l : List Conformer) (e : ℚ) :
    applyCutoff (applyCutoff l e) e = applyCutoff l e ∧
    (applyCutoff l e).Sublist l ∧
    ∀ c : Conformer, c ∈ applyCutoff l e ↔ c ∈ l ∧ c.relativeEnergy < e := by
  refine ⟨?_, List.filter_sublist _, ?_⟩
  · unfold applyCutoff
    rw [List.filter_filter]
    simp
  · intro c
    simp [applyCutoff, List.mem_filter]

/-- Sum of a pointwise-divided map. -/
theorem sum_map_div (l : List Conformer) (f : Conformer → ℝ) (S : ℝ) :
    (l.map fun c => f c / S).sum = (l.map f).sum / S := by
  induction l with
  | nil => simp
  | cons c cs ih => simp [ih, add_div]

/-- The sum of the spec Boltzmann factors over a nonempty list is positive. -/
theorem spec_factor_sum_pos (l : List Conformer) (T : ℚ) (hne : l ≠ []) :
    0 < (l.map fun c => specBoltzmannFactor c T).sum := by
  refine List.sum_pos _ ?_ ?_
  · intro x hx
    obtain ⟨c, -, rfl⟩ := List.mem_map.mp hx
    exact Real.exp_pos _
  · simpa using hne

/-- C1: for a nonempty conformer list and positive temperature, the code's
distribution equals the spec's — each entry is `exp(-ΔE·627.5/(R·T))`
normalised by the factor sum (the code computes `exp(-(ΔE/(R·T))·627.5)`,
equal in exact arithmetic) — and the entries are non-negative and sum to 1
exactly. -/
theorem boltzmann_matches_spec (confList : List Conformer) (temperature : ℚ)
    (hne : confList ≠ []) (hT : 0 < temperature) :
    boltzmannDistribution confList temperature =
      Except.ok (specBoltzmann confList temperature) ∧
    (∀ x ∈ specBoltzmann confList temperature, 0 ≤ x) ∧
    (specBoltzmann confList temperature).sum = 1 := by
  have hR : (0 : ℚ) < Rgas := by norm_num [Rgas]
  have hRT : Rgas * temperature ≠ 0 := ne_of_gt (mul_pos hR hT)
  have hfun : (fun c : Conformer =>
      Real.exp (-(tokcalR ((c.relativeEnergy : ℝ) / ((Rgas : ℝ) * (temperature : ℝ)))))) =
      fun c => specBoltzmannFactor c temperature := by
    funext c
    unfold tokcalR specBoltzmannFactor
    rw [div_mul_eq_mul_div]
  have hS : 0 < (confList.map fun c => specBoltzmannFactor c temperature).sum :=
    spec_factor_sum_pos confList temperature hne
  refine ⟨?_, ?_, ?_⟩
  · unfold boltzmannDistribution
    rw [if_neg (fun hcontr => hRT hcontr.2)]
    simp only [hfun, List.map_map]
    unfold specBoltzmann
    rfl
  · intro x hx
    unfold specBoltzmann at hx
    obtain ⟨c, -, rfl⟩ := List.mem_map.mp hx
    exact div_nonneg (Real.exp_pos _).le hS.le
  · unfold specBoltzmann
    rw [sum_map_div]
    exact div_self (ne_of_gt hS)

/-- C1 witness: the Boltzmann theorem at the singleton list and T = 1 K. -/
theorem boltzmann_matches_spec_witness :
    boltzmannDistribution [cdefault] 1 = Except.ok (specBoltzmann [cdefault] 1) ∧
    (∀ x ∈ specBoltzmann [cdefault] 1, 0 ≤ x) ∧
    (specBoltzmann [cdefault] 1).sum = 1 :=
  boltzmann_matches_spec [cdefault] 1 (by decide) (by decide)

/-- C6 counterexample: at the non-positive temperature `-1` the code does NOT
fail — there is no temperature validation at all; it happily returns the
normalised (degenerate) distribution `[1]` for a single conformer. -/
theorem negative_temperature_returns_ok :
    boltzmannDistribution [cdefault] (-1) = Except.ok [1] := by
  unfold boltzmannDistribution
  rw [if_neg (fun hcontr => absurd hcontr.2 (by norm_num [Rgas]))]
  norm_num [cdefault, tokcalR, Real.exp_zero]

/-- C6 (amended): `boltzmannDistribution` performs no temperature check; the
only failure is a `ZeroDivisionError`, raised exactly when the list is
nonempty and the temperature is exactly 0 (making `R·T` zero inside the
per-conformer division).  Every nonzero temperature — negative ones included —
returns normally. -/
theorem boltzmann_error_iff_zero_temperature (confList : List Conformer) (temperature : ℚ) :
    boltzmannDistribution confList temperature = Except.error PyError.zeroDivisionError ↔
      confList ≠ [] ∧ temperature = 0 := by
  have hR : Rgas ≠ 0 := by norm_num [Rgas]
  unfold boltzmannDistribution
  by_cases h : confList ≠ [] ∧ Rgas * temperature = 0
  · rw [if_pos h]
    simp only [true_iff]
    exact ⟨h.1, (mul_eq_zero.mp h.2).resolve_left hR⟩
  · rw [if_neg h]
    constructor
    · intro hcontra
      cases hcontra
    · intro hc
      exact absurd ⟨hc.1, by rw [hc.2, mul_zero]⟩ h

/-- Value of `np.arctan2(1, 0)`: π/2 (the positive-y axis). -/
theorem atan2_one_zero : arctan2 1 0 = Real.pi / 2 := by
  unfold arctan2
  have h : (⟨0, 1⟩ : ℂ) = Complex.I := rfl
  rw [h, Complex.arg_I]

/-- A quarter turn in degrees. -/
theorem degrees_pi_div_two : degrees (Real.pi / 2) = 90 := by
  unfold degrees
  have hpi : Real.pi ≠ 0 := Real.pi_ne_zero
  field_simp
  ring

/-- C3 counterexample: at a geometry whose summed angle is 0° (all three
substituent directions coincide), `np.interp` CLAMPS to the left table value
1, whereas the claimed un-clamped linear map would give 360/31.5 ≈ 11.43 —
the code does not extrapolate outside [328.5°, 360°]. -/
theorem pyramidalization_clamps_not_extrapolates :
    pyramidalization demoFlat 0 1 2 3 ≠ specLinearMap (angleSum demoFlat 0 1 2 3) := by
  have hsum : angleSum demoFlat 0 1 2 3 = 0 := by
    unfold angleSum angle atomPos demoFlat
    norm_num [sub3, dot3, norm3, degrees, Real.sqrt_one, Real.arccos_one]
  unfold pyramidalization
  rw [hsum]
  unfold interp specLinearMap
  rw [if_pos (by norm_num : (0 : ℝ) ≤ 328.5)]
  norm_num

/-- C3 (amended): `pyramidalization` equals the linear map sending 328.5° to 1
and 360° to 0 CLAMPED to those endpoint values outside the table — i.e. the
spec linear map composed with `max 0 ∘ min 1` — not the raw extrapolating
map. -/
theorem pyramidalization_is_clamped_linear (c : Conformer) (i1 i2 i3 i4 : ℕ) :
    pyramidalization c i1 i2 i3 i4 =
      max 0 (min 1 (specLinearMap (angleSum c i1 i2 i3 i4))) := by
  unfold pyramidalization interp specLinearMap
  set t := angleSum c i1 i2 i3 i4 with ht
  by_cases h1 : t ≤ 328.5
  · rw [if_pos h1]
    have hv : (1 : ℝ) ≤ (360 - t) / (360 - 328.5) := by
      rw [le_div_iff₀ (by norm_num)]
      linarith
    rw [min_eq_left hv, max_eq_right (by norm_num : (0 : ℝ) ≤ 1)]
  · rw [if_neg h1]
    by_cases h2 : (360 : ℝ) ≤ t
    · rw [if_pos h2]
      have hnum : (360 : ℝ) - t ≤ 0 := by linarith
      have hv : (360 - t) / (360 - 328.5) ≤ 0 :=
        div_nonpos_of_nonpos_of_nonneg hnum (by norm_num)
      rw [min_eq_right (le_trans hv (by norm_num : (0 : ℝ) ≤ 1)), max_eq_left hv]
    · rw [if_neg h2]
      push_neg at h1 h2
      have hv0 : 0 < (360 - t) / (360 - 328.5) := by
        apply div_pos
        · linarith
        · norm_num
      have hv1 : (360 - t) / (360 - 328.5) ≤ 1 := by
        rw [div_le_one (by norm_num)]
        linarith
      rw [min_eq_right hv1, max_eq_right hv0.le]
      field_simp

/-- C5: the spec's concrete geometry scenario — for atoms `(0,0,0)`,
`(1,0,0)`, `(1,1,0)`, `(1,1,1)`: `distance(0,1) = 1`, `angle(0,1,2) = 90°`,
and `dihedral(0,1,2,3) = +90°` (positive, confirming the two-argument
arctangent sign convention). -/
theorem geometry_reference_values :
    distance demoGeom 0 1 = 1 ∧ angle demoGeom 0 1 2 = 90 ∧
      dihedral demoGeom 0 1 2 3 = 90 := by
  refine ⟨?_, ?_, ?_⟩
  · unfold distance atomPos demoGeom
    norm_num [sub3, norm3, dot3, Real.sqrt_one]
  · unfold angle atomPos demoGeom
    norm_num [sub3, dot3, norm3, Real.sqrt_one, Real.arccos_zero]
    exact degrees_pi_div_two
  · unfold dihedral atomPos demoGeom
    norm_num [neg3, sub3, div3, smul3, dot3, cross3, norm3, Real.sqrt_one]
    rw [atan2_one_zero]
    exact degrees_pi_div_two
